import Mathlib

/-!
Shallow embedding of the place store of the andocent repository
(file src/store/index.ts), restricted to the place-filtering engine and
the place-store actions that the specification describes.

JavaScript strings are modelled as lists of characters; the library
calls used by the source are modelled characterwise:
String.prototype.toLowerCase by mapping Char.toLower and
String.prototype.trim by dropping whitespace at both ends.  The JS
truthiness test on a string (used by the source on the trimmed query and
on the selected category id) is modelled as the string being non-empty.
-/

namespace Andocent

/-- A JavaScript string, modelled as its list of characters. -/
abbrev Str : Type := List Char

/-- Model of String.prototype.toLowerCase, applied characterwise. -/
def lowercase (s : Str) : Str := s.map Char.toLower

/-- Model of String.prototype.trim: strip leading and trailing whitespace. -/
def trim (s : Str) : Str :=
  ((s.dropWhile Char.isWhitespace).reverse.dropWhile Char.isWhitespace).reverse

/-- The Category record carried by the store (only its identity matters here). -/
structure Category where
  id : Str
  name : Str
deriving DecidableEq

/-- A Place record (PlaceWithRelations restricted to the fields the spec's data
model lists): name, address, optional description and cuisine, the category
reference, the active flag and the coordinates. -/
structure Place where
  id : Str
  name : Str
  address : Str
  description : Option Str
  cuisine : Option Str
  categoryId : Str
  isActive : Bool
  latitude : Int
  longitude : Int
deriving DecidableEq

/-- The text-match predicate of the search stage of filterPlaces: any of name,
address, description (when present) or cuisine (when present), lowercased,
contains the lowercased (untrimmed) query as a substring.  An absent optional
field makes its disjunct false, as the optional chaining in the source does. -/
def matchesText (searchQuery : Str) (place : Place) : Bool :=
  decide (lowercase searchQuery <:+: lowercase place.name) ||
  decide (lowercase searchQuery <:+: lowercase place.address) ||
  (match place.description with
   | some d => decide (lowercase searchQuery <:+: lowercase d)
   | none => false) ||
  (match place.cuisine with
   | some k => decide (lowercase searchQuery <:+: lowercase k)
   | none => false)

/-- The search stage of filterPlaces: applied only when the trimmed query is
truthy, i.e. non-empty. -/
def textStage (searchQuery : Str) (places : List Place) : List Place :=
  if trim searchQuery = [] then places
  else places.filter (matchesText searchQuery)

/-- The category stage of filterPlaces: applied only when selectedCategoryId is
truthy, i.e. present and non-empty (null and the empty string are falsy in JS). -/
def categoryStage (selectedCategoryId : Option Str) (places : List Place) :
    List Place :=
  match selectedCategoryId with
  | none => places
  | some c => if c = [] then places
              else places.filter (fun place => place.categoryId == c)

/-- The final stage of filterPlaces: keep only active places. -/
def activeStage (places : List Place) : List Place :=
  places.filter (fun place => place.isActive)

/-- The pure filtering computation performed by the filterPlaces action: text
stage, then category stage, then active stage, each narrowing the previous
stage's survivors. -/
def filterPlacesCore (places : List Place) (searchQuery : Str)
    (selectedCategoryId : Option Str) : List Place :=
  activeStage (categoryStage selectedCategoryId (textStage searchQuery places))

/-- The PlaceState slice of the zustand store. -/
structure PlaceState where
  places : List Place
  categories : List Category
  selectedPlace : Option Place
  filteredPlaces : List Place
  searchQuery : Str
  selectedCategoryId : Option Str
deriving DecidableEq

/-- The filterPlaces action: recompute filteredPlaces from the current places,
searchQuery and selectedCategoryId, leaving every other field alone. -/
def filterPlaces (s : PlaceState) : PlaceState :=
  { s with filteredPlaces :=
      filterPlacesCore s.places s.searchQuery s.selectedCategoryId }

/-- The setPlaces action: replace places, then re-run filterPlaces. -/
def setPlaces (places : List Place) (s : PlaceState) : PlaceState :=
  filterPlaces { s with places := places }

/-- The setCategories action: replace categories (no re-filter in the source). -/
def setCategories (categories : List Category) (s : PlaceState) : PlaceState :=
  { s with categories := categories }

/-- The setSelectedPlace action. -/
def setSelectedPlace (place : Option Place) (s : PlaceState) : PlaceState :=
  { s with selectedPlace := place }

/-- The setSearchQuery action: replace searchQuery, then re-run filterPlaces. -/
def setSearchQuery (query : Str) (s : PlaceState) : PlaceState :=
  filterPlaces { s with searchQuery := query }

/-- The setSelectedCategory action: replace selectedCategoryId, then re-run
filterPlaces. -/
def setSelectedCategory (categoryId : Option Str) (s : PlaceState) : PlaceState :=
  filterPlaces { s with selectedCategoryId := categoryId }

/-- The addPlace action: append the new place, then re-run filterPlaces. -/
def addPlace (place : Place) (s : PlaceState) : PlaceState :=
  filterPlaces { s with places := s.places ++ [place] }

/-- A Partial of Place: each field is present (some) or absent (none); for
the optional Place fields a present entry carries an Option itself. -/
structure PlaceUpdate where
  id : Option Str
  name : Option Str
  address : Option Str
  description : Option (Option Str)
  cuisine : Option (Option Str)
  categoryId : Option Str
  isActive : Option Bool
  latitude : Option Int
  longitude : Option Int
deriving DecidableEq

/-- The object-spread merge that updatePlace performs on a matching place:
every field present in the update overrides the place's field. -/
def mergePlace (place : Place) (updates : PlaceUpdate) : Place :=
  { id := updates.id.getD place.id,
    name := updates.name.getD place.name,
    address := updates.address.getD place.address,
    description := updates.description.getD place.description,
    cuisine := updates.cuisine.getD place.cuisine,
    categoryId := updates.categoryId.getD place.categoryId,
    isActive := updates.isActive.getD place.isActive,
    latitude := updates.latitude.getD place.latitude,
    longitude := updates.longitude.getD place.longitude }

/-- The updatePlace action: merge the updates into every place whose id equals
the argument, then re-run filterPlaces. -/
def updatePlace (i : Str) (updates : PlaceUpdate) (s : PlaceState) : PlaceState :=
  filterPlaces
    { s with places :=
        s.places.map (fun place =>
          if place.id == i then mergePlace place updates else place) }

/-- The removePlace action: drop every place whose id equals the argument, then
re-run filterPlaces. -/
def removePlace (i : Str) (s : PlaceState) : PlaceState :=
  filterPlaces
    { s with places := s.places.filter (fun place => place.id != i) }

/-- The consistency property the store maintains: the cached filteredPlaces
field equals the filter of the current places by the current criteria. -/
def filterConsistent (s : PlaceState) : Prop :=
  s.filteredPlaces = filterPlacesCore s.places s.searchQuery s.selectedCategoryId

/-- Concrete place from the spec's worked example: an active heritage site with
no description and no cuisine. -/
def pHahoe : Place :=
  { id := "p1".toList,
    name := "Hahoe House".toList,
    address := "Andong-si".toList,
    description := none,
    cuisine := none,
    categoryId := "heritage".toList,
    isActive := true,
    latitude := 36,
    longitude := 128 }

/-- Concrete place from the spec's worked example: an active restaurant. -/
def pJjimdak : Place :=
  { id := "p2".toList,
    name := "Jjimdak Alley".toList,
    address := "Andong-si".toList,
    description := none,
    cuisine := some ("korean".toList),
    categoryId := "food".toList,
    isActive := true,
    latitude := 36,
    longitude := 128 }

/-- Concrete place from the spec's worked example: an inactive place. -/
def pClosed : Place :=
  { id := "p3".toList,
    name := "Closed Spot".toList,
    address := "X".toList,
    description := none,
    cuisine := none,
    categoryId := "food".toList,
    isActive := false,
    latitude := 0,
    longitude := 0 }

/-- The three example places as a list, in the spec's order. -/
def examplePlaces : List Place := [pHahoe, pJjimdak, pClosed]

/-- A concrete store state holding the example places. -/
def sampleState : PlaceState :=
  { places := examplePlaces,
    categories := [],
    selectedPlace := none,
    filteredPlaces := [],
    searchQuery := [],
    selectedCategoryId := none }

/-- A concrete partial update that renames a place and changes nothing else. -/
def sampleUpdate : PlaceUpdate :=
  { id := none,
    name := some ("Renamed".toList),
    address := none,
    description := none,
    cuisine := none,
    categoryId := none,
    isActive := none,
    latitude := none,
    longitude := none }

/-! Helper lemmas. -/

/-- Lowercasing a character does not change whether it is whitespace: the
source's toLowerCase only moves basic latin capitals to their lowercase
forms, none of which is whitespace. -/
theorem isWhitespace_toLower (c : Char) :
    (Char.toLower c).isWhitespace = c.isWhitespace := by
  have hws : ∀ d : Char, d.toNat ≠ 32 → d.toNat ≠ 9 → d.toNat ≠ 13 →
      d.toNat ≠ 10 → d.isWhitespace = false := by
    intro d h32 h9 h13 h10
    simp only [Char.isWhitespace, Bool.or_eq_false_iff, decide_eq_false_iff_not]
    refine ⟨⟨⟨?_, ?_⟩, ?_⟩, ?_⟩ <;> rintro rfl
    · exact h32 (by decide)
    · exact h9 (by decide)
    · exact h13 (by decide)
    · exact h10 (by decide)
  simp only [Char.toLower]
  split
  · rename_i h
    obtain ⟨h1, h2⟩ := h
    have hv : (Char.toNat c + 32).isValidChar := Or.inl (by omega)
    have ht : (Char.ofNat (Char.toNat c + 32)).toNat = Char.toNat c + 32 := by
      rw [Char.ofNat, dif_pos hv]; rfl
    have hL : (Char.ofNat (Char.toNat c + 32)).isWhitespace = false :=
      hws _ (by rw [ht]; omega) (by rw [ht]; omega) (by rw [ht]; omega)
        (by rw [ht]; omega)
    have hR : c.isWhitespace = false :=
      hws c (by omega) (by omega) (by omega) (by omega)
    rw [hL, hR]
  · rfl

/-- Dropping an initial whitespace run does not change whether every character
is whitespace. -/
theorem dropWhile_ws_all_iff (s : Str) :
    (∀ ch ∈ s.dropWhile Char.isWhitespace, ch.isWhitespace = true) ↔
      (∀ ch ∈ s, ch.isWhitespace = true) := by
  constructor
  · intro h ch hch
    rw [← List.takeWhile_append_dropWhile Char.isWhitespace (l := s)] at hch
    rcases List.mem_append.mp hch with hl | hr
    · exact List.mem_takeWhile_imp hl
    · exact h ch hr
  · intro h ch hch
    exact h ch ((List.dropWhile_sublist Char.isWhitespace).subset hch)

/-- The trimmed string is empty exactly when every character is whitespace. -/
theorem trim_eq_nil_iff (s : Str) :
    trim s = [] ↔ ∀ ch ∈ s, ch.isWhitespace = true := by
  unfold trim
  rw [List.reverse_eq_nil_iff, List.dropWhile_eq_nil_iff]
  simp only [List.mem_reverse]
  exact dropWhile_ws_all_iff s

/-- All-whitespace is invariant under lowercasing. -/
theorem lowercase_all_ws_iff (s : Str) :
    (∀ ch ∈ lowercase s, ch.isWhitespace = true) ↔
      (∀ ch ∈ s, ch.isWhitespace = true) := by
  unfold lowercase
  constructor
  · intro h ch hch
    have := h (Char.toLower ch) (List.mem_map_of_mem _ hch)
    rwa [isWhitespace_toLower] at this
  · intro h ch hch
    obtain ⟨a, ha, rfl⟩ := List.mem_map.mp hch
    rw [isWhitespace_toLower]
    exact h a ha

/-- Queries with equal lowercasings trim to empty together. -/
theorem trim_nil_iff_of_lowercase_eq {q1 q2 : Str}
    (h : lowercase q1 = lowercase q2) : trim q1 = [] ↔ trim q2 = [] := by
  rw [trim_eq_nil_iff, trim_eq_nil_iff, ← lowercase_all_ws_iff q1,
      ← lowercase_all_ws_iff q2, h]

/-- Unfolding of the text-match predicate into the four-way disjunction the
specification states. -/
theorem matchesText_iff (q : Str) (p : Place) :
    matchesText q p = true ↔
      ((lowercase q <:+: lowercase p.name) ∨
       (lowercase q <:+: lowercase p.address) ∨
       (∃ d, p.description = some d ∧ (lowercase q <:+: lowercase d)) ∨
       (∃ k, p.cuisine = some k ∧ (lowercase q <:+: lowercase k))) := by
  unfold matchesText
  rcases hd : p.description with _ | d <;> rcases hk : p.cuisine with _ | k <;>
    simp [hd, hk, or_assoc]

/-- Each stage output is a sublist of its input: text stage. -/
theorem textStage_sublist (q : Str) (P : List Place) :
    List.Sublist (textStage q P) P := by
  unfold textStage
  split
  · exact List.Sublist.refl P
  · exact List.filter_sublist P

/-- Each stage output is a sublist of its input: category stage. -/
theorem categoryStage_sublist (c : Option Str) (P : List Place) :
    List.Sublist (categoryStage c P) P := by
  rcases c with _ | c
  · exact List.Sublist.refl P
  · show List.Sublist
      (if c = [] then P else P.filter (fun place => place.categoryId == c)) P
    split
    · exact List.Sublist.refl P
    · exact List.filter_sublist P

/-- Each stage output is a sublist of its input: active stage. -/
theorem activeStage_sublist (P : List Place) :
    List.Sublist (activeStage P) P :=
  List.filter_sublist P

/-! Claim theorems. -/

/-- C1: when the trimmed query is empty the text stage keeps every place
unchanged; otherwise it keeps a place exactly when one of name, address,
description (when present) or cuisine (when present), lowercased, contains the
untrimmed lowercased query as a substring. -/
theorem text_stage_membership (P : List Place) (q : Str) :
    (trim q = [] → textStage q P = P) ∧
    (trim q ≠ [] → ∀ p : Place, p ∈ textStage q P ↔ p ∈ P ∧
      ((lowercase q <:+: lowercase p.name) ∨
       (lowercase q <:+: lowercase p.address) ∨
       (∃ d, p.description = some d ∧ (lowercase q <:+: lowercase d)) ∨
       (∃ k, p.cuisine = some k ∧ (lowercase q <:+: lowercase k)))) := by
  constructor
  · intro h
    unfold textStage
    rw [if_pos h]
  · intro h p
    unfold textStage
    rw [if_neg h, List.mem_filter, matchesText_iff]

/-- Witness for C1 at a concrete input: the query andong matches the address
of the example heritage place. -/
theorem text_stage_membership_witness :
    pHahoe ∈ textStage ("andong".toList) examplePlaces :=
  ((text_stage_membership examplePlaces ("andong".toList)).2 (by decide)
      pHahoe).mpr ⟨by decide, Or.inr (Or.inl (by decide))⟩

/-- C2: a place whose isActive flag is false never appears in the filter
result, whatever the query and category selection are. -/
theorem inactive_never_in_result (P : List Place) (q : Str) (c : Option Str)
    (p : Place) (h : p.isActive = false) : p ∉ filterPlacesCore P q c := by
  intro hmem
  unfold filterPlacesCore activeStage at hmem
  rw [List.mem_filter] at hmem
  rw [h] at hmem
  exact Bool.false_ne_true hmem.2

/-- Witness for C2 at a concrete input: the inactive example place is not in
the unfiltered result. -/
theorem inactive_never_in_result_witness :
    pClosed ∉ filterPlacesCore examplePlaces [] none :=
  inactive_never_in_result examplePlaces [] none pClosed (by decide)

/-- C3: with an empty query and the selected category cat-1, the filter returns
exactly the active places of category cat-1, in order; and an absent category
selector leaves the category stage as the identity. -/
theorem category_exact_match (P : List Place) :
    filterPlacesCore P [] (some ("cat-1".toList)) =
      P.filter (fun p => p.isActive && (p.categoryId == "cat-1".toList)) ∧
    categoryStage none P = P := by
  constructor
  · show activeStage (categoryStage (some ("cat-1".toList)) (textStage [] P)) =
      P.filter (fun p => p.isActive && (p.categoryId == "cat-1".toList))
    rw [show textStage [] P = P from rfl]
    rw [show categoryStage (some ("cat-1".toList)) P =
      P.filter (fun place => place.categoryId == "cat-1".toList) from rfl]
    unfold activeStage
    rw [List.filter_filter]
  · rfl

/-- C4: the filter result is a sublist of the input list: every result element
occurs in the input and relative order is preserved. -/
theorem filter_result_sublist (P : List Place) (q : Str) (c : Option Str) :
    List.Sublist (filterPlacesCore P q c) P :=
  ((activeStage_sublist _).trans (categoryStage_sublist c _)).trans
    (textStage_sublist q P)

/-- C5: the empty query and an all-whitespace query produce identical filter
results for every place list and category selection. -/
theorem empty_query_eq_whitespace_query (P : List Place) (c : Option Str) :
    filterPlacesCore P ("".toList) c = filterPlacesCore P ("   ".toList) c := by
  unfold filterPlacesCore textStage
  rw [if_pos (by decide), if_pos (by decide)]

/-- C6: the filter result is invariant under changing the letter case of the
query: queries with the same lowercasing give the same result, for every place
list and category selection. -/
theorem query_case_insensitive (P : List Place) (q1 q2 : Str) (c : Option Str)
    (h : lowercase q1 = lowercase q2) :
    filterPlacesCore P q1 c = filterPlacesCore P q2 c := by
  have htrim := trim_nil_iff_of_lowercase_eq h
  have hmatch : matchesText q1 = matchesText q2 := by
    funext p
    unfold matchesText
    rw [h]
  have htext : textStage q1 P = textStage q2 P := by
    unfold textStage
    by_cases h1 : trim q1 = []
    · rw [if_pos h1, if_pos (htrim.mp h1)]
    · rw [if_neg h1, if_neg (fun h2 => h1 (htrim.mpr h2)), hmatch]
  unfold filterPlacesCore
  rw [htext]

/-- Witness for C6 at a concrete input: the queries CAFE and cafe filter the
example places identically. -/
theorem query_case_insensitive_witness :
    filterPlacesCore examplePlaces ("CAFE".toList) none =
      filterPlacesCore examplePlaces ("cafe".toList) none :=
  query_case_insensitive examplePlaces ("CAFE".toList) ("cafe".toList) none
    (by decide)

/-- C7: a place with neither description nor cuisine passes the text stage
exactly when its name or its address contains the lowercased query; the absent
optional fields contribute nothing (and cause no failure, the predicate being
total). -/
theorem absent_optionals_match_name_address (P : List Place) (q : Str)
    (p : Place) (hd : p.description = none) (hk : p.cuisine = none)
    (hq : trim q ≠ []) :
    p ∈ textStage q P ↔ p ∈ P ∧
      ((lowercase q <:+: lowercase p.name) ∨
       (lowercase q <:+: lowercase p.address)) := by
  unfold textStage
  rw [if_neg hq, List.mem_filter, matchesText_iff]
  simp [hd, hk]

/-- Witness for C7 at a concrete input: the example heritage place, which has
neither description nor cuisine, passes the text stage through its name. -/
theorem absent_optionals_match_name_address_witness :
    pHahoe ∈ textStage ("hahoe".toList) [pHahoe] :=
  (absent_optionals_match_name_address [pHahoe] ("hahoe".toList) pHahoe rfl rfl
      (by decide)).mpr ⟨by decide, Or.inl (by decide)⟩

/-- C8: the filterPlaces action only replaces filteredPlaces: places,
categories, selectedPlace, searchQuery and selectedCategoryId are unchanged. -/
theorem filterPlaces_frame (s : PlaceState) :
    (filterPlaces s).places = s.places ∧
    (filterPlaces s).categories = s.categories ∧
    (filterPlaces s).selectedPlace = s.selectedPlace ∧
    (filterPlaces s).searchQuery = s.searchQuery ∧
    (filterPlaces s).selectedCategoryId = s.selectedCategoryId :=
  ⟨rfl, rfl, rfl, rfl, rfl⟩

/-- C9: after each of the six filter-input mutations the cached filteredPlaces
equals the filter of the current places by the current criteria, from any
starting state, so the consistency property is an invariant of the reachable
states. -/
theorem every_mutation_refilters (s : PlaceState) (ps : List Place) (q : Str)
    (c : Option Str) (p : Place) (i : Str) (u : PlaceUpdate) :
    filterConsistent (setPlaces ps s) ∧
    filterConsistent (setSearchQuery q s) ∧
    filterConsistent (setSelectedCategory c s) ∧
    filterConsistent (addPlace p s) ∧
    filterConsistent (updatePlace i u s) ∧
    filterConsistent (removePlace i s) :=
  ⟨rfl, rfl, rfl, rfl, rfl, rfl⟩

/-- C10: updatePlace keeps the length and order of the places list, rewrites
exactly the positions whose place has the given id by merging the updates, and
leaves the list unchanged when no place has the id. -/
theorem updatePlace_frame (s : PlaceState) (i : Str) (u : PlaceUpdate) :
    ((updatePlace i u s).places.length = s.places.length) ∧
    (∀ n : Nat, ∀ p : Place, s.places[n]? = some p → p.id ≠ i →
      (updatePlace i u s).places[n]? = some p) ∧
    (∀ n : Nat, ∀ p : Place, s.places[n]? = some p → p.id = i →
      (updatePlace i u s).places[n]? = some (mergePlace p u)) ∧
    ((∀ p ∈ s.places, p.id ≠ i) → (updatePlace i u s).places = s.places) := by
  have hpl : (updatePlace i u s).places =
      s.places.map (fun place =>
        if place.id == i then mergePlace place u else place) := rfl
  refine ⟨?_, ?_, ?_, ?_⟩
  · rw [hpl, List.length_map]
  · intro n p hn hne
    rw [hpl, List.getElem?_map, hn, Option.map_some', if_neg (by simp [hne])]
  · intro n p hn heq
    rw [hpl, List.getElem?_map, hn, Option.map_some', if_pos (by simp [heq])]
  · intro h
    have hid : ∀ place ∈ s.places,
        (if place.id == i then mergePlace place u else place) = place := by
      intro place hp
      rw [if_neg (by simp [h place hp])]
    rw [hpl, List.map_congr_left hid, List.map_id']

/-- Witness for C10 at a concrete input: updating the id p2 in the sample state
leaves the place with id p1 at position zero unchanged. -/
theorem updatePlace_frame_witness :
    (updatePlace ("p2".toList) sampleUpdate sampleState).places[0]? =
      some pHahoe :=
  (updatePlace_frame sampleState ("p2".toList) sampleUpdate).2.1 0 pHahoe
    (by decide) (by decide)

end Andocent
